import Mathlib

/-!
Verification of the rtcSession signaling layer (src/js/chat/rtcSession.js).

The development shallowly embeds the stateful JavaScript code as pure Lean
functions over explicit state records:

* `StreamState` — the module-global shared local-stream registry
  (`RtcSession.gLocalStream`, `RtcSession.gLocalStreamRefcount`, and the
  per-instance `_usedLocalStream` flags), with `myGetUserMedia`
  (`_myGetUserMedia` success path, which calls `_refLocalStream`) and
  `unrefLocalStream` (`_unrefLocalStream`).
* `RtcState` — the stream registry together with the jingle session registry,
  with `onConnFail` (`onConnectionEvent` on CONNFAIL/DISCONNECTING),
  `freeLocalStreamIfUnused` (`_freeLocalStreamIfUnused`) and `destroyM`
  (`destroy`).
* `InvState` — the closure state of one `startMediaCall` outgoing invitation
  (the `ansHandler`/`declineHandler` tokens, sent messages, emitted events),
  with one step function per trigger (accept message, decline message, answer
  timer, caller cancel).
* `JingleState`/`muteUnmute` — `muteUnmute` and `_getSessionsForJid`.
* `mediaOptionsToMutedState` and `incomingAnswer`
  (`onIncomingCallRequest`'s answer closure).

JavaScript booleans/undefined become `Bool`/`Option`, the numeric refcount
becomes `Int`, and the cooperative event queue becomes a list of events folded
over a step function.
-/

namespace WebClient

/-! ## Shared local stream registry -/

/-- Global shared-stream state: `RtcSession.gLocalStream` (modelled as a `Bool`
recording whether the stream is non-null/open), `RtcSession.gLocalStreamRefcount`
(a JS number, modelled as `Int`), the set of `RtcSession` instances whose
per-instance `_usedLocalStream` flag is `true` (instances are identified by
`Nat`), and a ghost counter of how many times the teardown notification
(`local-player-remove` followed by stopping and nulling the stream) has fired. -/
structure StreamState where
  gLocalStream : Bool
  gLocalStreamRefcount : Int
  usedList : List Nat
  teardowns : Nat
deriving DecidableEq, Repr

/-- The initial module state: `RtcSession.gLocalStream = null`, no instance has
`_usedLocalStream` set, no teardown has fired. -/
def initStreamState : StreamState := ⟨false, 0, [], 0⟩

/-- `RtcSession.prototype._refLocalStream` for instance `i`:
`this._usedLocalStream = true; RtcSession.gLocalStreamRefcount++;`. -/
def refLocalStream (i : Nat) (s : StreamState) : StreamState :=
  { s with
    usedList := if i ∈ s.usedList then s.usedList else i :: s.usedList,
    gLocalStreamRefcount := s.gLocalStreamRefcount + 1 }

/-- The success path of `RtcSession.prototype._myGetUserMedia` for instance `i`:
if `RtcSession.gLocalStream` is non-null, clone it and `_refLocalStream`;
otherwise `getUserMedia` succeeds, the stream is stored in
`RtcSession.gLocalStream`, `RtcSession.gLocalStreamRefcount` is set to `0`, and
then `_refLocalStream` runs.  (The failure path touches none of this state.) -/
def myGetUserMedia (i : Nat) (s : StreamState) : StreamState :=
  if s.gLocalStream then refLocalStream i s
  else refLocalStream i { s with gLocalStream := true, gLocalStreamRefcount := 0 }

/-- `RtcSession.prototype._unrefLocalStream` for instance `i`:
if `this._usedLocalStream` is unset, return; otherwise clear the flag and
decrement `RtcSession.gLocalStreamRefcount`; if the count is still positive,
return; if the stream is non-null, fire the teardown notification, stop the
stream and null it (the `gLocalStream` null warning branch leaves state as is,
apart from the already-performed decrement). -/
def unrefLocalStream (i : Nat) (s : StreamState) : StreamState :=
  if i ∈ s.usedList then
    let s1 : StreamState :=
      { s with
        usedList := s.usedList.erase i,
        gLocalStreamRefcount := s.gLocalStreamRefcount - 1 }
    if s1.gLocalStreamRefcount > 0 then s1
    else if s1.gLocalStream then
      { s1 with gLocalStream := false, teardowns := s1.teardowns + 1 }
    else s1
  else s

/-- One acquisition (`_myGetUserMedia` succeeding, via `_refLocalStream`) or one
release (`_unrefLocalStream`) performed by RtcSession instance `i`. -/
inductive StreamEvent
  | acquire (i : Nat)
  | release (i : Nat)
deriving DecidableEq, Repr

/-- One step of the shared-stream registry. -/
def streamStep (s : StreamState) : StreamEvent → StreamState
  | .acquire i => myGetUserMedia i s
  | .release i => unrefLocalStream i s

/-- Run a sequence of acquisitions/releases. -/
def streamRun (s : StreamState) : List StreamEvent → StreamState
  | [] => s
  | e :: tr => streamRun (streamStep s e) tr

/-- Number of steps along a trace at which the global refcount transitions
from `1` to `0` (the transitions at which the spec requires the teardown
notification to fire exactly once). -/
def countOneToZero (s : StreamState) : List StreamEvent → Nat
  | [] => 0
  | e :: tr =>
    (if s.gLocalStreamRefcount = 1 ∧ (streamStep s e).gLocalStreamRefcount = 0
      then 1 else 0) + countOneToZero (streamStep s e) tr

/-- Number of acquisitions by instance `i` in a trace. -/
def countAcq (i : Nat) : List StreamEvent → Nat
  | [] => 0
  | .acquire j :: tr => (if j = i then 1 else 0) + countAcq i tr
  | .release _ :: tr => countAcq i tr

/-- Number of releases by instance `i` in a trace. -/
def countRel (i : Nat) : List StreamEvent → Nat
  | [] => 0
  | .acquire _ :: tr => countRel i tr
  | .release j :: tr => (if j = i then 1 else 0) + countRel i tr

/-- A trace is well-formed from `s` when every acquisition is performed by an
instance whose `_usedLocalStream` flag is currently clear and every release by
an instance whose flag is currently set (i.e. no instance acquires a second
reference while still holding one, and releases only what it holds). -/
def wfB (s : StreamState) : List StreamEvent → Bool
  | [] => true
  | .acquire i :: tr =>
    decide (i ∉ s.usedList) && wfB (streamStep s (.acquire i)) tr
  | .release i :: tr =>
    decide (i ∈ s.usedList) && wfB (streamStep s (.release i)) tr

/-- Registry invariant: the per-instance flags are mutually distinct entries,
the refcount dominates the number of set flags, and the shared stream is open
exactly when the refcount is positive. -/
def StreamInv (s : StreamState) : Prop :=
  s.usedList.Nodup ∧ (s.usedList.length : Int) ≤ s.gLocalStreamRefcount ∧
    (s.gLocalStream = true ↔ 0 < s.gLocalStreamRefcount)

/-! ## JID helpers (Strophe.getBareJidFromJid / Strophe.getResourceFromJid) -/

/-- `Strophe.getBareJidFromJid`: the part of the JID before the first slash. -/
def bareJid (jid : String) : String :=
  ⟨jid.data.takeWhile (fun c => c != '/')⟩

/-- `Strophe.getResourceFromJid`: everything after the first slash (the empty
string standing for the `null` returned when there is no slash). -/
def strResource (jid : String) : String :=
  ⟨(jid.data.dropWhile (fun c => c != '/')).drop 1⟩

/-- `startMediaCall`'s `isBroadcast = (!Strophe.getResourceFromJid(targetJid))`:
true when the target JID carries no (non-empty) resource. -/
def isBroadcastJid (jid : String) : Bool :=
  strResource jid == ""

/-! ## Facade state: jingle session registry plus the shared stream -/

/-- The per-connection state visible to `onConnectionEvent`, `hangup`/`destroy`
and `_freeLocalStreamIfUnused`: the keys of `this.jingle.sessions` (session
ids) and the shared stream registry. -/
structure RtcState where
  sessions : List String
  stream : StreamState
deriving DecidableEq, Repr

/-- `RtcSession.prototype._freeLocalStreamIfUnused` for instance `i`:
if `Object.keys(this.jingle.sessions).length > 0` return, else
`_unrefLocalStream`. -/
def freeLocalStreamIfUnused (i : Nat) (σ : RtcState) : RtcState :=
  if σ.sessions.length > 0 then σ
  else { σ with stream := unrefLocalStream i σ.stream }

/-- Modelled from the spec: the jingle engine terminating one session removes
it from the registry and invokes `RtcSession.prototype.onCallTerminated`, whose
global-state effect (after stopping the session's own cloned stream and firing
the `call-ended` event) is `_freeLocalStreamIfUnused` — the spec's "On session
terminated ... unregister from SessionRegistry, and release the local stream
reference — triggering global teardown only if this was the last session."
(`jingle.terminateAll`/session removal live in the jingle library, which is not
under src/.) -/
def onCallTerminatedM (i : Nat) (σ : RtcState) (sid : String) : RtcState :=
  freeLocalStreamIfUnused i { σ with sessions := σ.sessions.erase sid }

/-- Iterate `onCallTerminatedM` over a list of session ids. -/
def terminateAllGo (i : Nat) : List String → RtcState → RtcState
  | [], σ => σ
  | sid :: rest, σ => terminateAllGo i rest (onCallTerminatedM i σ sid)

/-- Modelled from the spec: `this.jingle.terminateAll` terminates every
registered session immediately, firing the per-session termination callback
for each. -/
def terminateAllM (i : Nat) (σ : RtcState) : RtcState :=
  terminateAllGo i σ.sessions σ

/-- `onConnectionEvent` on `Strophe.Status.CONNFAIL` or `DISCONNECTING`:
`this.terminateAll(null, null, true); this._freeLocalStreamIfUnused();`. -/
def onConnFail (i : Nat) (σ : RtcState) : RtcState :=
  freeLocalStreamIfUnused i (terminateAllM i σ)

/-- `RtcSession.prototype.destroy`: `this.hangup()` (which, with no JID, is
`this.jingle.terminateAll()`) followed by `this._unrefLocalStream()`. -/
def destroyM (i : Nat) (σ : RtcState) : RtcState :=
  let σ1 := terminateAllM i σ
  { σ1 with stream := unrefLocalStream i σ1.stream }

/-! ## Outgoing invitation (startMediaCall) -/

/-- Which of the four mutually exclusive resolutions has taken effect (ghost
observer of which resolving handler ran). -/
inductive Resolution
  | accepted
  | declined
  | canceled
  | timedOut
deriving DecidableEq, Repr

/-- Messages sent through `this.connection.send` by the invitation code. -/
inductive OutMsg
  | megaCall (toJid : String)
  | megaCallCancel (toJid : String)
  | megaNotifyCallHandled (toJid : String) (handledBy : String) (accepted : Bool)
deriving DecidableEq, Repr

/-- `RtcSession.xmlUnescape`. -/
def xmlUnescape (text : String) : String :=
  ((((text.replace "&amp;" "&").replace "&lt;" "<").replace "&gt;" ">").replace
      "&apos;" ((Char.ofNat 39).toString)).replace "&quot;" "\""

/-- Events the invitation code fires on the RtcSession instance (jQuery
trigger).  `callDeclined` carries the `reason` attribute exactly as read from
the stanza (`none` when the peer supplied no attribute) and the unescaped body
text, `callInit` the accepting peer's full JID, `callAnswerTimeout` the
original target JID. -/
inductive UiEvent
  | callInit (peer : String)
  | callDeclined (peer : String) (reason : Option String) (text : Option String)
  | callAnswerTimeout (peer : String)
deriving DecidableEq, Repr

/-- The closure state of one `startMediaCall` invitation: whether the
`ansHandler` and `declineHandler` registration tokens are live (JS `undefined`
and `null` both map to `false`), whether the `_myGetUserMedia` success callback
has run, the messages sent, the events fired, how many times
`_freeLocalStreamIfUnused` was invoked on behalf of this invitation, the peer
passed to `this.jingle.initiate` (if any), and the ghost resolution marker. -/
structure InvState where
  ansHandler : Bool
  declineHandler : Bool
  mediaDone : Bool
  sent : List OutMsg
  events : List UiEvent
  freeStreamCalls : Nat
  initiated : Option String
  resolution : Option Resolution
deriving DecidableEq, Repr

/-- Invitation state right after `startMediaCall` returns, while
`_myGetUserMedia` is still pending: both handler variables are `undefined`,
nothing has been sent. -/
def initInvState : InvState := ⟨false, false, false, [], [], 0, none, none⟩

/-- The `_myGetUserMedia` success callback inside `startMediaCall`: register
the accept handler, register the decline handler, send the `megaCall`
invitation to the target, and start the answer timer. -/
def mediaSuccess (targetJid : String) (s : InvState) : InvState :=
  { s with
    ansHandler := true
    declineHandler := true
    mediaDone := true
    sent := s.sent ++ [OutMsg.megaCall targetJid] }

/-- The invitation state in which an answer is being awaited. -/
def awaitingState (targetJid : String) : InvState :=
  mediaSuccess targetJid initInvState

/-- The accept handler: the transport only delivers `megaCallAnswer` stanzas
whose `from` bare-matches the target (the handler was registered with
`from = targetJid, matchBare: true`); the handler body first checks
`if (!ansHandler) return;`, then deletes the decline handler, clears both
tokens, notifies the other resources when broadcasting, calls
`this.jingle.initiate(fullPeerJid, ...)` and fires `call-init`. -/
def recvAcceptStep (targetJid fromJid : String) (s : InvState) : InvState :=
  if bareJid fromJid != bareJid targetJid then s
  else if !s.ansHandler then s
  else
    { s with
      ansHandler := false
      declineHandler := false
      sent := s.sent ++
        (if isBroadcastJid targetJid then
          [OutMsg.megaNotifyCallHandled (bareJid targetJid) fromJid true]
        else [])
      initiated := some fromJid
      events := s.events ++ [UiEvent.callInit fromJid]
      resolution := some Resolution.accepted }

/-- The decline handler: delivered only for bare-matching `megaCallDecline`
stanzas while its registration token is live; the body first checks
`if (!ansHandler) return;`, then deletes the accept handler, clears both
tokens, drops the session stream and calls `_freeLocalStreamIfUnused`,
notifies the other resources when broadcasting, and fires `call-declined` with
`reason: $(stanza).attr('reason')` (passed through as read — `none` when the
stanza has no such attribute) and the unescaped body text if present. -/
def recvDeclineStep (targetJid fromJid : String) (reason : Option String)
    (body : Option String) (s : InvState) : InvState :=
  if bareJid fromJid != bareJid targetJid then s
  else if !s.declineHandler then s
  else if !s.ansHandler then s
  else
    { s with
      ansHandler := false
      declineHandler := false
      freeStreamCalls := s.freeStreamCalls + 1
      sent := s.sent ++
        (if isBroadcastJid targetJid then
          [OutMsg.megaNotifyCallHandled (bareJid targetJid) fromJid false]
        else [])
      events := s.events ++
        [UiEvent.callDeclined fromJid reason (body.map xmlUnescape)]
      resolution := some Resolution.declined }

/-- The answer timer callback: `if (!ansHandler) return;`, else delete both
handlers, clear both tokens, drop the session stream and call
`_freeLocalStreamIfUnused`, send `megaCallCancel` to the bare target JID, and
fire `call-answer-timeout` with the original target JID. -/
def timerFireStep (targetJid : String) (s : InvState) : InvState :=
  if !s.ansHandler then s
  else
    { s with
      ansHandler := false
      declineHandler := false
      freeStreamCalls := s.freeStreamCalls + 1
      sent := s.sent ++ [OutMsg.megaCallCancel (bareJid targetJid)]
      events := s.events ++ [UiEvent.callAnswerTimeout targetJid]
      resolution := some Resolution.timedOut }

/-- The `cancel()` method of the object returned by `startMediaCall`:
`if (!ansHandler) return false;`, else delete both handlers, clear both
tokens, call `_freeLocalStreamIfUnused`, send `megaCallCancel` to the bare
target JID and return `true`.  Returns the JS return value together with the
post state. -/
def cancelCall (targetJid : String) (s : InvState) : Bool × InvState :=
  if !s.ansHandler then (false, s)
  else
    (true,
      { s with
        ansHandler := false
        declineHandler := false
        freeStreamCalls := s.freeStreamCalls + 1
        sent := s.sent ++ [OutMsg.megaCallCancel (bareJid targetJid)]
        resolution := some Resolution.canceled })

/-- A trigger arriving at an outstanding invitation. -/
inductive InvEvent
  | recvAccept (fromJid : String)
  | recvDecline (fromJid : String) (reason : Option String) (body : Option String)
  | timerFire
  | cancel
deriving DecidableEq, Repr

/-- One trigger step of the invitation (the `cancel` return value is dropped
here; `cancelCall` exposes it). -/
def invStep (targetJid : String) (s : InvState) : InvEvent → InvState
  | .recvAccept fromJid => recvAcceptStep targetJid fromJid s
  | .recvDecline fromJid reason body => recvDeclineStep targetJid fromJid reason body s
  | .timerFire => timerFireStep targetJid s
  | .cancel => (cancelCall targetJid s).2

/-- Run a sequence of triggers. -/
def invRun (targetJid : String) (s : InvState) : List InvEvent → InvState
  | [] => s
  | e :: tr => invRun targetJid (invStep targetJid s e) tr

/-- Number of steps along a trigger trace at which a resolution takes effect
(the ghost resolution marker moves from `none` to `some`). -/
def effCount (targetJid : String) (s : InvState) : List InvEvent → Nat
  | [] => 0
  | e :: tr =>
    (if s.resolution = none ∧ (invStep targetJid s e).resolution ≠ none
      then 1 else 0) + effCount targetJid (invStep targetJid s e) tr

/-- Invitation invariant: the two handler tokens are registered and cleared
together, and they are live exactly while no resolution has taken effect. -/
def InvGood (s : InvState) : Prop :=
  s.ansHandler = s.declineHandler ∧ (s.ansHandler = true ↔ s.resolution = none)

/-! ## Session registry queries (muteUnmute / _getSessionsForJid) -/

/-- The jingle registries consulted by `_getSessionsForJid`: the values of
`this.jingle.sessions` (keyed by session id) and of `this.jingle.jid2session`
(keyed by full peer JID); sessions are identified by `Nat` tokens. -/
structure JingleState where
  sessions : List (String × Nat)
  jid2session : List (String × Nat)
deriving DecidableEq, Repr

/-- `RtcSession.prototype._getSessionsForJid`: with no JID, collect all
sessions and return `null` when there are none; with a JID, return every
`jid2session` entry whose key has the same bare JID — note that this branch
returns the (possibly empty) array and never `null`. -/
def getSessionsForJid (st : JingleState) (jid : Option String) :
    Option (List Nat) :=
  match jid with
  | none =>
    let ss := (st.sessions.map Prod.snd)
    if ss.length < 1 then none else some ss
  | some j =>
    some ((st.jid2session.filter (fun p => bareJid p.fst == bareJid j)).map
      Prod.snd)

/-- `RtcSession.prototype.muteUnmute(state, what, jid)`: resolve the sessions
via `_getSessionsForJid`; if that yields `null` return `false`, else apply
`muteUnmute(state, what)` to each resolved session and return `true`.  The
result records the JS return value and the list of sessions the operation was
applied to (the mute application itself lives in the jingle session object,
outside src/). -/
def muteUnmute (st : JingleState) (muteState : Bool) (whatAudio whatVideo : Bool)
    (jid : Option String) : Bool × List Nat :=
  let _ := (muteState, whatAudio, whatVideo)
  match getSessionsForJid st jid with
  | none => (false, [])
  | some l => (true, l)

/-! ## Muted-state computation and the incoming-call answer closure -/

/-- `MediaOptions` as used by `startMediaCall`/`mediaOptionsToMutedState`. -/
structure MediaOptions where
  audio : Bool
  video : Bool
deriving DecidableEq, Repr

/-- The track lists of a media stream, reduced to the two lengths the code
inspects (`stream.getAudioTracks().length`, `stream.getVideoTracks().length`). -/
structure StreamTracks where
  audioTracks : Nat
  videoTracks : Nat
deriving DecidableEq, Repr

/-- Modelled from the spec: the `MutedState` value object
(`{audioMuted, videoMuted}`, §3 of the spec); its constructor and `set` method
are defined in the jingle library, which is not under src/. -/
structure MutedState where
  audioMuted : Bool
  videoMuted : Bool
deriving DecidableEq, Repr

/-- Modelled from the spec: `MutedState.set(audio, video)` stores the two
flags. -/
def MutedState.set (audio video : Bool) : MutedState := ⟨audio, video⟩

/-- `RtcSession.mediaOptionsToMutedState(options, stream)`:
`muteAudio = (!options.audio && (stream.getAudioTracks().length > 0))`,
`muteVideo = (!options.video && (stream.getVideoTracks().length > 0))`,
`mutedState.set(muteAudio, muteVideo)`. -/
def mediaOptionsToMutedState (options : MediaOptions) (stream : StreamTracks) :
    MutedState :=
  MutedState.set (!options.audio && decide (stream.audioTracks > 0))
    (!options.video && decide (stream.videoTracks > 0))

/-- Outcome of the `_myGetUserMedia` attempt made by the accept path of the
incoming-call answer closure. -/
inductive MediaOutcome
  | ok (tracks : StreamTracks)
  | fail (err : String)
deriving DecidableEq, Repr

/-- One invocation of the jingle-level `ansFunc` primitive, as performed by the
answer closure: the accept flag, the decline reason and text, and the muted
state attached on accept. -/
structure AnsCall where
  accept : Bool
  reason : Option String
  text : Option String
  muted : Option MutedState
deriving DecidableEq, Repr

/-- Result of invoking the answer closure: its JS return value and the
`ansFunc` invocations it (eventually) performs. -/
structure AnswerResult where
  retVal : Bool
  calls : List AnsCall
deriving DecidableEq, Repr

/-- The error text built by the answer closure's media-failure callback. -/
def mediaErrText (err : String) : String :=
  "There was a problem accessing user" ++ (Char.ofNat 39).toString ++
    "s camera or microphone. Error: " ++ err

/-- The `answer` closure exposed by `onIncomingCallRequest`:
`if (!reqStillValid()) return false;` — `valid` is the value of the live
validity predicate at the moment of this invocation, not a cached flag —
then, declining, forward to `ansFunc(false, {reason: obj.reason || 'busy',
text: obj.text})` and return its value (modelled from the spec: `ansFunc` is
the jingle answer primitive, outside src/; per its documented contract it
returns `true` while the invitation is still valid, which was just checked);
accepting, run `_myGetUserMedia` — on success call `ansFunc(true, ...)` with
the muted state computed by `mediaOptionsToMutedState`, on failure call
`ansFunc(false, {reason: 'error', text: ...})` — and return `true`. -/
def incomingAnswer (valid accept : Bool) (reason text : Option String)
    (mediaOptions : MediaOptions) (media : MediaOutcome) : AnswerResult :=
  if !valid then ⟨false, []⟩
  else if !accept then
    ⟨true, [⟨false, some (reason.getD "busy"), text, none⟩]⟩
  else
    match media with
    | .ok tracks =>
      ⟨true, [⟨true, none, none, some (mediaOptionsToMutedState mediaOptions tracks)⟩]⟩
    | .fail err =>
      ⟨true, [⟨false, some "error", some (mediaErrText err), none⟩]⟩

/-! ## Theorems: the shared local stream registry -/

theorem streamInv_init : StreamInv initStreamState := by
  refine ⟨List.nodup_nil, ?_, ?_⟩ <;> simp [initStreamState]

theorem streamStep_inv (e : StreamEvent) {s : StreamState} (h : StreamInv s) :
    StreamInv (streamStep s e) := by
  obtain ⟨hnd, hlen, hiff⟩ := h
  cases e with
  | acquire i =>
    by_cases hs : s.gLocalStream = true
    · have hpos : 0 < s.gLocalStreamRefcount := hiff.mp hs
      by_cases hm : i ∈ s.usedList
      · exact ⟨by simp [streamStep, myGetUserMedia, refLocalStream, hs, hm, hnd],
          by simp [streamStep, myGetUserMedia, refLocalStream, hs, hm]; omega,
          by simp [streamStep, myGetUserMedia, refLocalStream, hs, hm]; omega⟩
      · exact ⟨by simp [streamStep, myGetUserMedia, refLocalStream, hs, hm, hnd],
          by simp [streamStep, myGetUserMedia, refLocalStream, hs, hm]; omega,
          by simp [streamStep, myGetUserMedia, refLocalStream, hs, hm]; omega⟩
    · have hz : ¬ 0 < s.gLocalStreamRefcount := fun hc =>
        hs (hiff.mpr hc)
      have hlen0 : s.usedList.length = 0 := by omega
      have hnil : s.usedList = [] := List.length_eq_zero.mp hlen0
      by_cases hm : i ∈ s.usedList
      · exact absurd hm (by simp [hnil])
      · exact ⟨by simp [streamStep, myGetUserMedia, refLocalStream, hs, hm, hnil],
          by simp [streamStep, myGetUserMedia, refLocalStream, hs, hm, hnil],
          by simp [streamStep, myGetUserMedia, refLocalStream, hs, hm]⟩
  | release i =>
    by_cases hm : i ∈ s.usedList
    · have hmemlen : 0 < s.usedList.length := List.length_pos_of_mem hm
      have herase : (s.usedList.erase i).length = s.usedList.length - 1 :=
        List.length_erase_of_mem hm
      have hpos : 0 < s.gLocalStreamRefcount := by omega
      have hs : s.gLocalStream = true := hiff.mpr hpos
      by_cases hgt : s.gLocalStreamRefcount - 1 > 0
      · exact ⟨by simp [streamStep, unrefLocalStream, hm, hgt, hnd.erase i],
          by simp [streamStep, unrefLocalStream, hm, hgt, herase]; omega,
          by simp [streamStep, unrefLocalStream, hm, hgt, hs]⟩
      · exact ⟨by simp [streamStep, unrefLocalStream, hm, hgt, hs, hnd.erase i],
          by simp [streamStep, unrefLocalStream, hm, hgt, hs, herase]; omega,
          by simp [streamStep, unrefLocalStream, hm, hgt, hs]⟩
    · exact ⟨by simp [streamStep, unrefLocalStream, hm, hnd],
        by simp [streamStep, unrefLocalStream, hm]; omega,
        by simp [streamStep, unrefLocalStream, hm, hiff]⟩

theorem streamRun_inv (tr : List StreamEvent) :
    ∀ {s : StreamState}, StreamInv s → StreamInv (streamRun s tr) := by
  induction tr with
  | nil => intro s h; exact h
  | cons e tr ih => intro s h; exact ih (streamStep_inv e h)

theorem myGetUserMedia_usedList (i : Nat) (s : StreamState) :
    (myGetUserMedia i s).usedList =
      if i ∈ s.usedList then s.usedList else i :: s.usedList := by
  by_cases hs : s.gLocalStream = true <;>
    simp [myGetUserMedia, refLocalStream, hs]

theorem myGetUserMedia_teardowns (i : Nat) (s : StreamState) :
    (myGetUserMedia i s).teardowns = s.teardowns := by
  by_cases hs : s.gLocalStream = true <;>
    simp [myGetUserMedia, refLocalStream, hs]

theorem unref_notmem {i : Nat} {s : StreamState} (hm : i ∉ s.usedList) :
    unrefLocalStream i s = s := by
  simp [unrefLocalStream, hm]

theorem unref_fields (i : Nat) {s : StreamState} (hm : i ∈ s.usedList) :
    (unrefLocalStream i s).usedList = s.usedList.erase i ∧
      (unrefLocalStream i s).gLocalStreamRefcount =
        s.gLocalStreamRefcount - 1 := by
  by_cases hgt : s.gLocalStreamRefcount - 1 > 0
  · simp [unrefLocalStream, hm, hgt]
  · by_cases hst : s.gLocalStream = true <;>
      simp [unrefLocalStream, hm, hgt, hst]

theorem streamStep_nodup (e : StreamEvent) {s : StreamState}
    (h : s.usedList.Nodup) : (streamStep s e).usedList.Nodup := by
  cases e with
  | acquire i =>
    show (myGetUserMedia i s).usedList.Nodup
    rw [myGetUserMedia_usedList]
    by_cases hm : i ∈ s.usedList
    · simpa [hm] using h
    · rw [if_neg hm]
      exact (List.nodup_cons).mpr ⟨hm, h⟩
  | release i =>
    by_cases hm : i ∈ s.usedList
    · show (unrefLocalStream i s).usedList.Nodup
      rw [(unref_fields i hm).1]
      exact h.erase i
    · show (unrefLocalStream i s).usedList.Nodup
      rw [unref_notmem hm]
      exact h

theorem unref_clears (i : Nat) {s : StreamState} (hnd : s.usedList.Nodup) :
    i ∉ (unrefLocalStream i s).usedList := by
  by_cases hm : i ∈ s.usedList
  · rw [(unref_fields i hm).1]
    intro hc
    exact ((List.Nodup.mem_erase_iff hnd).mp hc).1 rfl
  · rw [unref_notmem hm]
    exact hm

theorem unref_idem (i : Nat) {s : StreamState} (hnd : s.usedList.Nodup) :
    unrefLocalStream i (unrefLocalStream i s) = unrefLocalStream i s :=
  unref_notmem (unref_clears i hnd)

theorem unref_nodup (i : Nat) {s : StreamState} (hnd : s.usedList.Nodup) :
    (unrefLocalStream i s).usedList.Nodup :=
  streamStep_nodup (.release i) hnd

theorem streamStep_teardowns (e : StreamEvent) {s : StreamState}
    (h : StreamInv s) :
    (streamStep s e).teardowns = s.teardowns +
      (if s.gLocalStreamRefcount = 1 ∧
          (streamStep s e).gLocalStreamRefcount = 0 then 1 else 0) := by
  obtain ⟨hnd, hlen, hiff⟩ := h
  cases e with
  | acquire i =>
    have hte : (streamStep s (.acquire i)).teardowns = s.teardowns :=
      myGetUserMedia_teardowns i s
    have hcond : ¬ (s.gLocalStreamRefcount = 1 ∧
        (streamStep s (.acquire i)).gLocalStreamRefcount = 0) := by
      by_cases hs : s.gLocalStream = true
      · simp only [streamStep, myGetUserMedia, refLocalStream, hs, if_true]
        intro hc
        omega
      · simp only [streamStep, myGetUserMedia, refLocalStream, hs]
        intro hc
        simp at hc
    rw [hte, if_neg hcond, Nat.add_zero]
  | release i =>
    by_cases hm : i ∈ s.usedList
    · have hmemlen : 0 < s.usedList.length := List.length_pos_of_mem hm
      have hrc : (streamStep s (.release i)).gLocalStreamRefcount =
          s.gLocalStreamRefcount - 1 := (unref_fields i hm).2
      by_cases hgt : s.gLocalStreamRefcount - 1 > 0
      · have hte : (streamStep s (.release i)).teardowns = s.teardowns := by
          simp [streamStep, unrefLocalStream, hm, hgt]
        rw [hte, if_neg (by omega), Nat.add_zero]
      · have hpos : 0 < s.gLocalStreamRefcount := by omega
        have hs : s.gLocalStream = true := hiff.mpr hpos
        have hte : (streamStep s (.release i)).teardowns = s.teardowns + 1 := by
          simp [streamStep, unrefLocalStream, hm, hgt, hs]
        rw [hte, if_pos (by omega)]
    · have hid : streamStep s (.release i) = s := unref_notmem hm
      rw [hid, if_neg (by omega), Nat.add_zero]

theorem streamRun_teardowns (tr : List StreamEvent) :
    ∀ {s : StreamState}, StreamInv s →
      (streamRun s tr).teardowns = s.teardowns + countOneToZero s tr := by
  induction tr with
  | nil => intro s _; simp [streamRun, countOneToZero]
  | cons e tr ih =>
    intro s h
    show (streamRun (streamStep s e) tr).teardowns = _
    rw [ih (streamStep_inv e h), streamStep_teardowns e h, countOneToZero,
      Nat.add_assoc]

theorem wfB_len (tr : List StreamEvent) :
    ∀ {s : StreamState}, StreamInv s →
      s.gLocalStreamRefcount = (s.usedList.length : Int) →
      wfB s tr = true →
      (streamRun s tr).gLocalStreamRefcount =
        ((streamRun s tr).usedList.length : Int) := by
  induction tr with
  | nil => intro s _ heq _; exact heq
  | cons e tr ih =>
    intro s hinv heq hwf
    cases e with
    | acquire i =>
      simp only [wfB, Bool.and_eq_true, decide_eq_true_eq] at hwf
      obtain ⟨hm, hwf⟩ := hwf
      refine ih (streamStep_inv _ hinv) ?_ hwf
      obtain ⟨hnd, hlen, hiff⟩ := hinv
      by_cases hs : s.gLocalStream = true
      · simp only [streamStep, myGetUserMedia, refLocalStream, hs, if_true,
          if_neg hm]
        simp only [List.length_cons]
        omega
      · have hz : ¬ 0 < s.gLocalStreamRefcount := fun hc => hs (hiff.mpr hc)
        have hnil : s.usedList = [] := List.length_eq_zero.mp (by omega)
        simp [streamStep, myGetUserMedia, refLocalStream, hs, hnil]
    | release i =>
      simp only [wfB, Bool.and_eq_true, decide_eq_true_eq] at hwf
      obtain ⟨hm, hwf⟩ := hwf
      refine ih (streamStep_inv _ hinv) ?_ hwf
      have hmemlen : 0 < s.usedList.length := List.length_pos_of_mem hm
      have herase : (s.usedList.erase i).length = s.usedList.length - 1 :=
        List.length_erase_of_mem hm
      have h1 := (unref_fields i hm).1
      have h2 := (unref_fields i hm).2
      show (unrefLocalStream i s).gLocalStreamRefcount =
        ((unrefLocalStream i s).usedList.length : Int)
      rw [h1, h2, herase]
      omega

theorem wfB_mem (tr : List StreamEvent) :
    ∀ {s : StreamState}, s.usedList.Nodup → wfB s tr = true → ∀ j : Nat,
      (j ∈ (streamRun s tr).usedList ↔
        (if j ∈ s.usedList then countRel j tr = countAcq j tr
         else countAcq j tr = countRel j tr + 1)) := by
  induction tr with
  | nil =>
    intro s hnd _ j
    by_cases hj : j ∈ s.usedList <;> simp [streamRun, countAcq, countRel, hj]
  | cons e tr ih =>
    intro s hnd hwf j
    cases e with
    | acquire i =>
      simp only [wfB, Bool.and_eq_true, decide_eq_true_eq] at hwf
      obtain ⟨hm, hwf⟩ := hwf
      have hnd2 : (streamStep s (.acquire i)).usedList.Nodup :=
        streamStep_nodup _ hnd
      have hmem : (streamStep s (.acquire i)).usedList = i :: s.usedList := by
        show (myGetUserMedia i s).usedList = _
        rw [myGetUserMedia_usedList, if_neg hm]
      have H := ih hnd2 hwf j
      rw [hmem] at H
      by_cases hji : j = i
      · subst hji
        rw [if_pos (List.mem_cons_self j s.usedList)] at H
        rw [if_neg hm]
        show j ∈ (streamRun (streamStep s (.acquire j)) tr).usedList ↔ _
        rw [H]
        simp only [countAcq, countRel]
        simp only [if_pos rfl, reduceIte]
        constructor <;> intro h <;> omega
      · have hij : ¬ (i = j) := fun h => hji h.symm
        have hcons : (j ∈ i :: s.usedList) ↔ j ∈ s.usedList := by
          simp [List.mem_cons, hji]
        simp only [hcons] at H
        show j ∈ (streamRun (streamStep s (.acquire i)) tr).usedList ↔ _
        rw [H]
        simp only [countAcq, countRel, if_neg hij, Nat.zero_add]
    | release i =>
      simp only [wfB, Bool.and_eq_true, decide_eq_true_eq] at hwf
      obtain ⟨hm, hwf⟩ := hwf
      have hnd2 : (streamStep s (.release i)).usedList.Nodup :=
        streamStep_nodup _ hnd
      have hmem : (streamStep s (.release i)).usedList = s.usedList.erase i :=
        (unref_fields i hm).1
      have H := ih hnd2 hwf j
      rw [hmem] at H
      by_cases hji : j = i
      · subst hji
        have hne : j ∉ s.usedList.erase j := fun hc =>
          ((List.Nodup.mem_erase_iff hnd).mp hc).1 rfl
        rw [if_neg hne] at H
        rw [if_pos hm]
        show j ∈ (streamRun (streamStep s (.release j)) tr).usedList ↔ _
        rw [H]
        simp only [countAcq, countRel]
        simp only [if_pos rfl, reduceIte]
        constructor <;> intro h <;> omega
      · have hij : ¬ (i = j) := fun h => hji h.symm
        have herasemem : (j ∈ s.usedList.erase i) ↔ j ∈ s.usedList := by
          rw [List.Nodup.mem_erase_iff hnd]
          simp [hji]
        simp only [herasemem] at H
        show j ∈ (streamRun (streamStep s (.release i)) tr).usedList ↔ _
        rw [H]
        simp only [countAcq, countRel, if_neg hij, Nat.zero_add]

/-! ## Theorems: connection failure, destroy, idempotent release -/

theorem RtcState.ext2 {a b : RtcState} (h1 : a.sessions = b.sessions)
    (h2 : a.stream = b.stream) : a = b := by
  cases a; cases b; simp_all

theorem terminateAllGo_spec (i : Nat) (l : List String) :
    ∀ σ : RtcState, σ.sessions = l →
      (terminateAllGo i l σ).sessions = [] ∧
      ((l = [] ∧ (terminateAllGo i l σ).stream = σ.stream) ∨
        (terminateAllGo i l σ).stream = unrefLocalStream i σ.stream) := by
  induction l with
  | nil => intro σ h; exact ⟨h, Or.inl ⟨rfl, rfl⟩⟩
  | cons sid rest ih =>
    intro σ h
    have hstep : onCallTerminatedM i σ sid =
        freeLocalStreamIfUnused i ⟨rest, σ.stream⟩ := by
      simp [onCallTerminatedM, h, List.erase_cons_head]
    by_cases hrest : rest = []
    · have hres : terminateAllGo i (sid :: rest) σ =
          ⟨[], unrefLocalStream i σ.stream⟩ := by
        subst hrest
        show terminateAllGo i [] (onCallTerminatedM i σ sid) = _
        rw [hstep]
        simp [freeLocalStreamIfUnused, terminateAllGo]
      rw [hres]
      exact ⟨rfl, Or.inr rfl⟩
    · have hlen : rest.length > 0 := by
        cases rest with
        | nil => exact absurd rfl hrest
        | cons a b => simp
      have hstep2 : onCallTerminatedM i σ sid = ⟨rest, σ.stream⟩ := by
        rw [hstep]
        simp [freeLocalStreamIfUnused, hlen]
      obtain ⟨hsess, hstream⟩ := ih ⟨rest, σ.stream⟩ rfl
      show (terminateAllGo i rest (onCallTerminatedM i σ sid)).sessions = [] ∧
        ((sid :: rest = [] ∧
          (terminateAllGo i rest (onCallTerminatedM i σ sid)).stream = σ.stream) ∨
        (terminateAllGo i rest (onCallTerminatedM i σ sid)).stream =
          unrefLocalStream i σ.stream)
      rw [hstep2]
      refine ⟨hsess, Or.inr ?_⟩
      rcases hstream with ⟨hnil, _⟩ | hu
      · exact absurd hnil hrest
      · exact hu

theorem destroy_components (i : Nat) (σ : RtcState)
    (hnd : σ.stream.usedList.Nodup) :
    (destroyM i σ).sessions = [] ∧
      (destroyM i σ).stream = unrefLocalStream i σ.stream := by
  obtain ⟨hsess, hstr⟩ := terminateAllGo_spec i σ.sessions σ rfl
  constructor
  · simpa [destroyM, terminateAllM] using hsess
  · show unrefLocalStream i (terminateAllM i σ).stream = _
    rcases hstr with ⟨_, hsame⟩ | hu
    · rw [show (terminateAllM i σ).stream = σ.stream from hsame]
    · rw [show (terminateAllM i σ).stream = unrefLocalStream i σ.stream from hu]
      exact unref_idem i hnd

/-- C4 (amended): when the transport reports CONNFAIL or DISCONNECTING,
`onConnectionEvent` terminates every registered session (the jingle session
registry is emptied) and then releases this instance's own reference to the
shared local stream, exactly once and idempotently (the event as a whole has
the stream-state effect of a single `_unrefLocalStream`, and the redundant
trailing `_freeLocalStreamIfUnused` is a harmless no-op).  The stream is
closed only if that single release brings the count to zero; the event does
not force the count to zero when other references are outstanding (see the
counterexample theorem for the original "regardless of reference count"
clause). -/
theorem connfail_terminates_sessions_releases_single_ref :
    ∀ (i : Nat) (σ : RtcState), σ.stream.usedList.Nodup →
      (onConnFail i σ).sessions = [] ∧
      (onConnFail i σ).stream = unrefLocalStream i σ.stream := by
  intro i σ hnd
  obtain ⟨hsess, hstr⟩ := terminateAllGo_spec i σ.sessions σ rfl
  have hsess2 : (terminateAllM i σ).sessions = [] := hsess
  have h1 : onConnFail i σ =
      { terminateAllM i σ with
        stream := unrefLocalStream i (terminateAllM i σ).stream } := by
    show freeLocalStreamIfUnused i (terminateAllM i σ) = _
    simp [freeLocalStreamIfUnused, hsess2]
  constructor
  · rw [h1]
    exact hsess2
  · rw [h1]
    show unrefLocalStream i (terminateAllM i σ).stream = _
    rcases hstr with ⟨_, hsame⟩ | hu
    · rw [show (terminateAllM i σ).stream = σ.stream from hsame]
    · rw [show (terminateAllM i σ).stream = unrefLocalStream i σ.stream from hu]
      exact unref_idem i hnd

theorem connfail_terminates_sessions_releases_single_ref_witness :
    (onConnFail 0 ⟨["sid1"], ⟨true, 1, [0], 0⟩⟩).sessions = [] ∧
      (onConnFail 0 ⟨["sid1"], ⟨true, 1, [0], 0⟩⟩).stream =
        unrefLocalStream 0 (⟨true, 1, [0], 0⟩ : StreamState) :=
  connfail_terminates_sessions_releases_single_ref 0
    ⟨["sid1"], ⟨true, 1, [0], 0⟩⟩ (by decide)

/-- C4 counterexample: with two active sessions whose references were both
acquired by the same RtcSession instance (a state reached by running
`_myGetUserMedia` twice from the initial state, refcount 2), the
CONNFAIL/DISCONNECTING path terminates both sessions but leaves the refcount
at 1 and the shared stream open — the reference count is not driven to zero
and the stream is not force-released. -/
theorem connfail_refcount_not_driven_to_zero_counterexample :
    streamRun initStreamState [StreamEvent.acquire 0, StreamEvent.acquire 0] =
      (⟨true, 2, [0], 0⟩ : StreamState) ∧
    (onConnFail 0 ⟨["sid1", "sid2"], ⟨true, 2, [0], 0⟩⟩).sessions = [] ∧
    (onConnFail 0
        ⟨["sid1", "sid2"], ⟨true, 2, [0], 0⟩⟩).stream.gLocalStreamRefcount = 1 ∧
    (onConnFail 0
        ⟨["sid1", "sid2"], ⟨true, 2, [0], 0⟩⟩).stream.gLocalStream = true := by
  decide

/-- C9: releasing the shared local stream is idempotent per holder — for any
state whose per-instance flags are consistent, a second `_unrefLocalStream`
by the same instance is a complete no-op (no second decrement, no error, no
state change), and likewise a second `destroy()` call leaves the state
exactly as the first left it. -/
theorem release_idempotent_per_holder :
    ∀ (i : Nat) (σ : RtcState), σ.stream.usedList.Nodup →
      unrefLocalStream i (unrefLocalStream i σ.stream) =
        unrefLocalStream i σ.stream ∧
      destroyM i (destroyM i σ) = destroyM i σ := by
  intro i σ hnd
  refine ⟨unref_idem i hnd, ?_⟩
  obtain ⟨h1, h2⟩ := destroy_components i σ hnd
  have hnd2 : (destroyM i σ).stream.usedList.Nodup := by
    rw [h2]
    exact unref_nodup i hnd
  obtain ⟨h3, h4⟩ := destroy_components i (destroyM i σ) hnd2
  refine RtcState.ext2 (by rw [h3, h1]) ?_
  rw [h4, h2]
  exact unref_idem i hnd

theorem release_idempotent_per_holder_witness :
    unrefLocalStream 0 (unrefLocalStream 0 (⟨true, 1, [0], 0⟩ : StreamState)) =
      unrefLocalStream 0 (⟨true, 1, [0], 0⟩ : StreamState) ∧
    destroyM 0 (destroyM 0 ⟨["sid1"], ⟨true, 1, [0], 0⟩⟩) =
      destroyM 0 ⟨["sid1"], ⟨true, 1, [0], 0⟩⟩ :=
  release_idempotent_per_holder 0 ⟨["sid1"], ⟨true, 1, [0], 0⟩⟩ (by decide)

/-- C1 (amended): for every sequence of local-stream acquisitions
(`_myGetUserMedia`, via `_refLocalStream`) and releases (`_unrefLocalStream`)
from the initial state, `RtcSession.gLocalStream` is non-null iff
`RtcSession.gLocalStreamRefcount > 0`, and the teardown notification
(`local-player-remove`, stop, null) fires exactly once per transition of the
count from 1 to 0.  The pairing/no-leak clause holds in the amended form:
because each instance tracks usage with the single boolean
`_usedLocalStream`, leak-freedom requires that no instance acquires while it
already holds a reference (and releases only while holding one); under that
proviso a trace with equally many acquisitions and releases per instance ends
with refcount 0 and the stream closed.  (As originally stated the no-leak
clause fails — see the counterexample theorem.) -/
theorem localStream_refcount_invariant_amended (tr : List StreamEvent) :
    ((streamRun initStreamState tr).gLocalStream = true ↔
      0 < (streamRun initStreamState tr).gLocalStreamRefcount) ∧
    (streamRun initStreamState tr).teardowns =
      countOneToZero initStreamState tr ∧
    (wfB initStreamState tr = true →
      (∀ j : Nat, countAcq j tr = countRel j tr) →
      (streamRun initStreamState tr).gLocalStreamRefcount = 0 ∧
      (streamRun initStreamState tr).gLocalStream = false) := by
  have hinv := streamRun_inv tr streamInv_init
  refine ⟨hinv.2.2, ?_, ?_⟩
  · have h := streamRun_teardowns tr streamInv_init
    simpa [initStreamState] using h
  · intro hwf hbal
    have hmem := wfB_mem tr (by simp [initStreamState]) hwf
    have hempty : (streamRun initStreamState tr).usedList = [] := by
      rw [List.eq_nil_iff_forall_not_mem]
      intro j hj
      have hc := (hmem j).mp hj
      rw [if_neg (by simp [initStreamState])] at hc
      have hb := hbal j
      omega
    have hlen := wfB_len tr streamInv_init (by simp [initStreamState]) hwf
    have hrc : (streamRun initStreamState tr).gLocalStreamRefcount = 0 := by
      rw [hlen, hempty]
      simp
    refine ⟨hrc, ?_⟩
    cases hstream : (streamRun initStreamState tr).gLocalStream with
    | false => rfl
    | true =>
      have := hinv.2.2.mp hstream
      rw [hrc] at this
      omega

theorem localStream_refcount_invariant_amended_witness :
    (streamRun initStreamState
        [StreamEvent.acquire 0, StreamEvent.release 0]).gLocalStreamRefcount = 0 ∧
    (streamRun initStreamState
        [StreamEvent.acquire 0, StreamEvent.release 0]).gLocalStream = false :=
  (localStream_refcount_invariant_amended
      [StreamEvent.acquire 0, StreamEvent.release 0]).2.2 (by decide)
    (fun j => by cases j <;> rfl)

/-- C1 counterexample: the trace in which one instance acquires twice and then
releases twice is balanced (equally many acquisitions and releases by the only
instance involved), yet it ends with refcount 1 and the shared stream still
open, no teardown ever fires, and no further release can ever free it — a
leaked reference on a path where every acquisition was paired with a release. -/
theorem localStream_balanced_trace_leak_counterexample :
    countAcq 0 [StreamEvent.acquire 0, StreamEvent.acquire 0,
        StreamEvent.release 0, StreamEvent.release 0] =
      countRel 0 [StreamEvent.acquire 0, StreamEvent.acquire 0,
        StreamEvent.release 0, StreamEvent.release 0] ∧
    (streamRun initStreamState [StreamEvent.acquire 0, StreamEvent.acquire 0,
        StreamEvent.release 0, StreamEvent.release 0]).gLocalStreamRefcount = 1 ∧
    (streamRun initStreamState [StreamEvent.acquire 0, StreamEvent.acquire 0,
        StreamEvent.release 0, StreamEvent.release 0]).gLocalStream = true ∧
    (streamRun initStreamState [StreamEvent.acquire 0, StreamEvent.acquire 0,
        StreamEvent.release 0, StreamEvent.release 0]).teardowns = 0 ∧
    streamStep (streamRun initStreamState [StreamEvent.acquire 0,
        StreamEvent.acquire 0, StreamEvent.release 0, StreamEvent.release 0])
        (StreamEvent.release 0) =
      streamRun initStreamState [StreamEvent.acquire 0, StreamEvent.acquire 0,
        StreamEvent.release 0, StreamEvent.release 0] := by
  decide

/-! ## Theorems: the outgoing invitation protocol -/

theorem invGood_awaiting (targetJid : String) :
    InvGood (awaitingState targetJid) := by
  constructor <;> simp [awaitingState, mediaSuccess, initInvState]

theorem invStep_good (targetJid : String) (e : InvEvent) {s : InvState}
    (h : InvGood s) : InvGood (invStep targetJid s e) := by
  obtain ⟨h1, h2⟩ := h
  cases e with
  | recvAccept fromJid =>
    cases hb : (bareJid fromJid != bareJid targetJid) with
    | true => simpa [invStep, recvAcceptStep, hb] using ⟨h1, h2⟩
    | false =>
      cases ha : s.ansHandler with
      | false => simpa [invStep, recvAcceptStep, hb, ha] using ⟨h1, h2⟩
      | true => simp [invStep, recvAcceptStep, hb, ha, InvGood]
  | recvDecline fromJid reason body =>
    cases hb : (bareJid fromJid != bareJid targetJid) with
    | true => simpa [invStep, recvDeclineStep, hb] using ⟨h1, h2⟩
    | false =>
      cases hd : s.declineHandler with
      | false => simpa [invStep, recvDeclineStep, hb, hd] using ⟨h1, h2⟩
      | true =>
        cases ha : s.ansHandler with
        | false => simpa [invStep, recvDeclineStep, hb, hd, ha] using ⟨h1, h2⟩
        | true => simp [invStep, recvDeclineStep, hb, hd, ha, InvGood]
  | timerFire =>
    cases ha : s.ansHandler with
    | false => simpa [invStep, timerFireStep, ha] using ⟨h1, h2⟩
    | true => simp [invStep, timerFireStep, ha, InvGood]
  | cancel =>
    cases ha : s.ansHandler with
    | false => simpa [invStep, cancelCall, ha] using ⟨h1, h2⟩
    | true => simp [invStep, cancelCall, ha, InvGood]

theorem invStep_frozen (targetJid : String) (e : InvEvent) {s : InvState}
    (hg : InvGood s) (hr : s.resolution ≠ none) :
    invStep targetJid s e = s := by
  obtain ⟨h1, h2⟩ := hg
  have ha : s.ansHandler = false := by
    cases hx : s.ansHandler
    · rfl
    · exact absurd (h2.mp hx) hr
  have hd : s.declineHandler = false := by
    rw [← h1]
    exact ha
  cases e with
  | recvAccept fromJid => simp [invStep, recvAcceptStep, ha]
  | recvDecline fromJid reason body => simp [invStep, recvDeclineStep, ha, hd]
  | timerFire => simp [invStep, timerFireStep, ha]
  | cancel => simp [invStep, cancelCall, ha]

theorem invRun_good (targetJid : String) (tr : List InvEvent) :
    ∀ {s : InvState}, InvGood s → InvGood (invRun targetJid s tr) := by
  induction tr with
  | nil => intro s h; exact h
  | cons e tr ih => intro s h; exact ih (invStep_good targetJid e h)

theorem invRun_frozen (targetJid : String) (tr : List InvEvent) :
    ∀ {s : InvState}, InvGood s → s.resolution ≠ none →
      invRun targetJid s tr = s := by
  induction tr with
  | nil => intro s _ _; rfl
  | cons e tr ih =>
    intro s hg hr
    show invRun targetJid (invStep targetJid s e) tr = s
    rw [invStep_frozen targetJid e hg hr]
    exact ih hg hr

theorem effCount_spec (targetJid : String) (tr : List InvEvent) :
    ∀ {s : InvState}, InvGood s →
      effCount targetJid s tr =
        (if s.resolution = none then
          (if (invRun targetJid s tr).resolution = none then 0 else 1)
        else 0) := by
  induction tr with
  | nil =>
    intro s _
    by_cases hr : s.resolution = none <;> simp [effCount, invRun, hr]
  | cons e tr ih =>
    intro s h
    by_cases hr : s.resolution = none
    · by_cases hr2 : (invStep targetJid s e).resolution = none
      · rw [effCount, ih (invStep_good targetJid e h)]
        simp [hr, hr2, invRun]
      · have hg2 := invStep_good targetJid e h
        have hfr := invRun_frozen targetJid tr hg2 hr2
        rw [effCount, ih hg2]
        show _ = if s.resolution = none then
          (if (invRun targetJid (invStep targetJid s e) tr).resolution = none
            then 0 else 1) else 0
        rw [hfr]
        simp [hr, hr2]
    · have hfr0 := invStep_frozen targetJid e h hr
      rw [effCount, hfr0, ih h]
      simp [hr]

/-- C2: for an outgoing invitation in the awaiting-answer state, at most one
of the four resolutions (accept, decline, cancel, timeout) ever takes effect,
and exactly one does as soon as any effective trigger arrives; while
unresolved both handler tokens are registered; in the very step in which a
resolution takes effect both message-handler tokens are already cleared (so
they are deregistered before the resolving handler returns), and every
trigger that arrives after resolution — a late accept or decline message, the
still-scheduled answer timer, or a cancel call — is detected by the cleared
`ansHandler` token and produces no event, no message and no state change. -/
theorem invitation_resolution_exactly_once (targetJid : String)
    (tr : List InvEvent) :
    ((invRun targetJid (awaitingState targetJid) tr).resolution = none →
      (invRun targetJid (awaitingState targetJid) tr).ansHandler = true ∧
      (invRun targetJid (awaitingState targetJid) tr).declineHandler = true) ∧
    ((invRun targetJid (awaitingState targetJid) tr).resolution ≠ none →
      (invRun targetJid (awaitingState targetJid) tr).ansHandler = false ∧
      (invRun targetJid (awaitingState targetJid) tr).declineHandler = false ∧
      ∀ e : InvEvent,
        invStep targetJid (invRun targetJid (awaitingState targetJid) tr) e =
          invRun targetJid (awaitingState targetJid) tr) ∧
    effCount targetJid (awaitingState targetJid) tr =
      (if (invRun targetJid (awaitingState targetJid) tr).resolution = none
        then 0 else 1) := by
  obtain ⟨h1, h2⟩ := invRun_good targetJid tr (invGood_awaiting targetJid)
  refine ⟨?_, ?_, ?_⟩
  · intro hr
    have ha := h2.mpr hr
    exact ⟨ha, by rw [← h1]; exact ha⟩
  · intro hr
    have ha : (invRun targetJid (awaitingState targetJid) tr).ansHandler =
        false := by
      cases hx : (invRun targetJid (awaitingState targetJid) tr).ansHandler
      · rfl
      · exact absurd (h2.mp hx) hr
    exact ⟨ha, by rw [← h1]; exact ha,
      fun e => invStep_frozen targetJid e ⟨h1, h2⟩ hr⟩
  · rw [effCount_spec targetJid tr (invGood_awaiting targetJid)]
    simp [awaitingState, mediaSuccess, initInvState]

theorem invitation_resolution_exactly_once_witness :
    (invRun "peer@srv" (awaitingState "peer@srv") []).ansHandler = true ∧
    (invRun "peer@srv" (awaitingState "peer@srv")
        [InvEvent.recvAccept "peer@srv/r1"]).ansHandler = false ∧
    invStep "peer@srv"
        (invRun "peer@srv" (awaitingState "peer@srv")
          [InvEvent.recvAccept "peer@srv/r1"]) InvEvent.timerFire =
      invRun "peer@srv" (awaitingState "peer@srv")
        [InvEvent.recvAccept "peer@srv/r1"] := by
  have hA := (invitation_resolution_exactly_once "peer@srv" []).1 (by decide)
  have hB := (invitation_resolution_exactly_once "peer@srv"
      [InvEvent.recvAccept "peer@srv/r1"]).2.1 (by decide)
  exact ⟨hA.1, hB.1, hB.2.2 InvEvent.timerFire⟩

/-- C3: `cancel()` on the object returned by `startMediaCall` returns `true`
— and then sends exactly one `megaCallCancel` to the bare target JID — if and
only if the invitation is still unresolved in the awaiting-answer state; once
the invitation has resolved (accept, decline or timeout) it returns `false`
and performs no state change at all; in particular, after the timeout has
already fired, the `false`-returning cancel does not invoke
`_freeLocalStreamIfUnused` a second time. -/
theorem cancel_true_iff_unresolved (targetJid : String)
    (tr : List InvEvent) :
    ((cancelCall targetJid
        (invRun targetJid (awaitingState targetJid) tr)).1 = true ↔
      (invRun targetJid (awaitingState targetJid) tr).resolution = none) ∧
    ((invRun targetJid (awaitingState targetJid) tr).resolution = none →
      (cancelCall targetJid
          (invRun targetJid (awaitingState targetJid) tr)).2.sent =
        (invRun targetJid (awaitingState targetJid) tr).sent ++
          [OutMsg.megaCallCancel (bareJid targetJid)]) ∧
    ((invRun targetJid (awaitingState targetJid) tr).resolution ≠ none →
      cancelCall targetJid (invRun targetJid (awaitingState targetJid) tr) =
        (false, invRun targetJid (awaitingState targetJid) tr)) := by
  obtain ⟨h1, h2⟩ := invRun_good targetJid tr (invGood_awaiting targetJid)
  refine ⟨?_, ?_, ?_⟩
  · constructor
    · intro hc
      cases ha : (invRun targetJid (awaitingState targetJid) tr).ansHandler
      · rw [ha] at h2
        simp [cancelCall, ha] at hc
      · exact h2.mp ha
    · intro hr
      have ha := h2.mpr hr
      simp [cancelCall, ha]
  · intro hr
    have ha := h2.mpr hr
    simp [cancelCall, ha]
  · intro hr
    have ha : (invRun targetJid (awaitingState targetJid) tr).ansHandler =
        false := by
      cases hx : (invRun targetJid (awaitingState targetJid) tr).ansHandler
      · rfl
      · exact absurd (h2.mp hx) hr
    simp [cancelCall, ha]

theorem cancel_true_iff_unresolved_witness :
    cancelCall "peer@srv"
        (invRun "peer@srv" (awaitingState "peer@srv") [InvEvent.timerFire]) =
      (false, invRun "peer@srv" (awaitingState "peer@srv")
        [InvEvent.timerFire]) ∧
    (cancelCall "peer@srv"
        (invRun "peer@srv" (awaitingState "peer@srv") [])).2.sent =
      (invRun "peer@srv" (awaitingState "peer@srv") []).sent ++
        [OutMsg.megaCallCancel (bareJid "peer@srv")] := by
  exact ⟨(cancel_true_iff_unresolved "peer@srv" [InvEvent.timerFire]).2.2
      (by decide),
    (cancel_true_iff_unresolved "peer@srv" []).2.1 (by decide)⟩

/-- C10: while `_myGetUserMedia` is still pending (before the success callback
registers `ansHandler`), `cancel()` returns `false` and deregisters nothing —
the state is completely unchanged; when media acquisition subsequently
succeeds, the `megaCall` invitation message is still sent, both handlers are
registered and the invitation proceeds (unresolved) to await an answer, so an
invitation cannot be canceled during the media-acquisition window. -/
theorem cancel_before_media_pending_noop (targetJid : String) :
    cancelCall targetJid initInvState = (false, initInvState) ∧
    (mediaSuccess targetJid (cancelCall targetJid initInvState).2).ansHandler =
      true ∧
    (mediaSuccess targetJid
        (cancelCall targetJid initInvState).2).declineHandler = true ∧
    (mediaSuccess targetJid (cancelCall targetJid initInvState).2).sent =
      [OutMsg.megaCall targetJid] ∧
    (mediaSuccess targetJid (cancelCall targetJid initInvState).2).resolution =
      none := by
  refine ⟨?_, ?_, ?_, ?_, ?_⟩ <;> simp [cancelCall, initInvState, mediaSuccess]

/-- C5 evaluated at the failing input: when a `megaCallDecline` stanza carries
no `reason` attribute, the resolving decline handler emits `call-declined`
with reason `none` — the code forwards `$(stanza).attr('reason')` unchanged
and never applies the documented default `"busy"`; a supplied reason is
passed through as is. -/
theorem decline_reason_missing_busy_default_eval :
    (invStep "peer@srv" (awaitingState "peer@srv")
        (InvEvent.recvDecline "peer@srv/r1" none none)).events =
      [UiEvent.callDeclined "peer@srv/r1" none none] ∧
    (invStep "peer@srv" (awaitingState "peer@srv")
        (InvEvent.recvDecline "peer@srv/r1" (some "offline") none)).events =
      [UiEvent.callDeclined "peer@srv/r1" (some "offline") none] ∧
    (invStep "peer@srv" (awaitingState "peer@srv")
        (InvEvent.recvDecline "peer@srv/r1" none none)).resolution =
      some Resolution.declined := by
  decide

/-! ## Theorems: muteUnmute fan-out, muted state, incoming answer -/

/-- C6 evaluated at the failing input: `muteUnmute` with a JID that matches no
registered session returns `true` on an empty selection (the empty array from
`_getSessionsForJid` is truthy), not `false` as specified; the no-JID branch
with no sessions does return `false`, and the fan-out itself resolves all
sessions (no JID) or all resources of the bare JID. -/
theorem muteUnmute_unmatched_jid_returns_true_eval :
    (muteUnmute ⟨[("sid1", 1)], [("alice@srv/r1", 1)]⟩ true true false
        (some "bob@srv")).1 = true ∧
    (muteUnmute ⟨[("sid1", 1)], [("alice@srv/r1", 1)]⟩ true true false
        (some "bob@srv")).2 = [] ∧
    (muteUnmute ⟨[], []⟩ true true false none).1 = false ∧
    (muteUnmute ⟨[("sid1", 1), ("sid2", 2), ("sid3", 3)],
        [("alice@srv/r1", 1), ("alice@srv/r2", 2), ("bob@srv/r1", 3)]⟩
        true true false (some "alice@srv/r9")).2 = [1, 2] ∧
    (muteUnmute ⟨[("sid1", 1), ("sid2", 2)], [("a@s/r1", 1), ("b@s/r1", 2)]⟩
        true true false none).2 = [1, 2] := by
  decide

/-- C7: `mediaOptionsToMutedState` mutes a channel exactly when it is not
requested and the stream has a track of that kind — audioMuted is
`!options.audio && audioTracks > 0` and videoMuted is
`!options.video && videoTracks > 0`; in particular `{audio:false, video:true}`
yields `{audioMuted:true, videoMuted:false}` both on an audio+video stream and
on an audio-only stream. -/
theorem mediaOptionsToMutedState_spec :
    (∀ (options : MediaOptions) (stream : StreamTracks),
      (mediaOptionsToMutedState options stream).audioMuted =
        (!options.audio && decide (stream.audioTracks > 0)) ∧
      (mediaOptionsToMutedState options stream).videoMuted =
        (!options.video && decide (stream.videoTracks > 0))) ∧
    mediaOptionsToMutedState ⟨false, true⟩ ⟨1, 1⟩ = ⟨true, false⟩ ∧
    mediaOptionsToMutedState ⟨false, true⟩ ⟨1, 0⟩ = ⟨true, false⟩ :=
  ⟨fun _ _ => ⟨rfl, rfl⟩, rfl, rfl⟩

/-- C8: the incoming-call `answer` closure returns `false` exactly when the
live validity predicate is `false` at the moment of the call; declining while
valid always delivers the decline with the reason defaulting to `"busy"`;
accepting while valid with failing media acquisition replies as a decline
with reason `"error"` and a text that carries the underlying device error,
and with successful acquisition completes the handshake with the muted state
computed from requested options versus available tracks. -/
theorem incoming_answer_validity_and_error_reply :
    ∀ (valid accept : Bool) (reason text : Option String)
      (mopts : MediaOptions) (media : MediaOutcome),
      ((incomingAnswer valid accept reason text mopts media).retVal = false ↔
        valid = false) ∧
      (valid = true → accept = false →
        (incomingAnswer valid accept reason text mopts media).calls =
          [⟨false, some (reason.getD "busy"), text, none⟩]) ∧
      (valid = true → accept = true → ∀ err : String,
        media = MediaOutcome.fail err →
        (incomingAnswer valid accept reason text mopts media).calls =
          [⟨false, some "error", some (mediaErrText err), none⟩]) ∧
      (valid = true → accept = true → ∀ tracks : StreamTracks,
        media = MediaOutcome.ok tracks →
        (incomingAnswer valid accept reason text mopts media).calls =
          [⟨true, none, none,
            some (mediaOptionsToMutedState mopts tracks)⟩]) := by
  intro valid accept reason text mopts media
  cases valid <;> cases accept <;> cases media <;>
    simp [incomingAnswer]

theorem incoming_answer_validity_and_error_reply_witness :
    (incomingAnswer false false none none ⟨true, true⟩
        (MediaOutcome.ok ⟨1, 1⟩)).retVal = false ∧
    (incomingAnswer true false none none ⟨true, true⟩
        (MediaOutcome.ok ⟨1, 1⟩)).calls =
      [⟨false, some "busy", none, none⟩] ∧
    (incomingAnswer true true none none ⟨false, true⟩
        (MediaOutcome.fail "NotAllowedError")).calls =
      [⟨false, some "error", some (mediaErrText "NotAllowedError"), none⟩] ∧
    (incomingAnswer true true none none ⟨false, true⟩
        (MediaOutcome.ok ⟨1, 0⟩)).calls =
      [⟨true, none, none,
        some (mediaOptionsToMutedState ⟨false, true⟩ ⟨1, 0⟩)⟩] := by
  refine ⟨?_, ?_, ?_, ?_⟩
  · exact (incoming_answer_validity_and_error_reply false false none none
      ⟨true, true⟩ (MediaOutcome.ok ⟨1, 1⟩)).1.mpr rfl
  · exact (incoming_answer_validity_and_error_reply true false none none
      ⟨true, true⟩ (MediaOutcome.ok ⟨1, 1⟩)).2.1 rfl rfl
  · exact (incoming_answer_validity_and_error_reply true true none none
      ⟨false, true⟩ (MediaOutcome.fail "NotAllowedError")).2.2.1 rfl rfl
      "NotAllowedError" rfl
  · exact (incoming_answer_validity_and_error_reply true true none none
      ⟨false, true⟩ (MediaOutcome.ok ⟨1, 0⟩)).2.2.2 rfl rfl ⟨1, 0⟩ rfl

end WebClient
